/-
Verification of the polymarket-scraper data-access layer.

The development shallowly embeds the two halves of the program covered by the
specification: the schema-driven query translator (parseValue and
buildWhereClause in server.ts together with the field-type registries and the
pagination parameters of handleMarkets and handleEvents) and the ingestion
pipeline (the paged fetch loop of upsertEvents and the deduplicate, chunk and
upsert logic of bulkUpsertEvents and bulkUpsertMarkets).

Modelling conventions:
- A request parameter multi-map is a list of (key, value) entries in order;
  URLSearchParams.entries, getAll and get are modelled on that list.
- A JavaScript object used as an ordered string-keyed dictionary (the where
  object, and Map with string keys) is a list of (key, value) pairs where an
  assignment to an existing key replaces the value in place and an assignment
  to a fresh key appends, matching the insertion-order semantics of both.
- Fallible JavaScript computations are modelled with Option: none stands for
  NaN (parseInt, parseFloat, Date), for a thrown-and-caught exception
  (JSON.parse inside try/catch), or for undefined.
- The numeric builtins parseFloat, Date parsing and JSON.parse are platform
  functions, not code of this repository; they are taken as parameters of
  type String → Option _ (with none exactly on the inputs on which the
  builtin yields NaN / an invalid date / a parse error).  parseInt is needed
  at concrete inputs by the pagination claims and is therefore modelled
  concretely after the ECMAScript algorithm.  Numeric values are modelled as
  exact rationals; no claim in scope depends on binary floating-point
  rounding, only on parse success and order.
-/
import Mathlib

/-- Semantic type of a registered field, as in the field-type tables of
server.ts. -/
inductive FieldType where
  | string
  | number
  | boolean
  | date
  | json
  deriving DecidableEq, Repr

/-- A parsed JSON document (the result type of the JSON.parse builtin). -/
inductive JsonVal where
  | null
  | bool (b : Bool)
  | num (q : ℚ)
  | str (s : String)
  | arr (elems : List JsonVal)
  | obj (fields : List (String × JsonVal))

/-- A typed value produced by parseValue in server.ts. -/
inductive JsValue where
  | str (s : String)
  | num (q : ℚ)
  | bool (b : Bool)
  | date (ms : Int)
  | json (j : JsonVal)

/-- A value stored in the where object built by buildWhereClause: either a
plain parsed value (an equality filter) or an object with optional in, gte
and lte properties. -/
inductive WhereVal where
  | prim (v : JsValue)
  | obj (inVals : Option (List JsValue)) (gte : Option JsValue) (lte : Option JsValue)

/-- parseValue from server.ts: parse a query parameter value according to the
field type.  The parameters np, dp and jp model the platform builtins
parseFloat composed with the isNaN check, the Date constructor composed with
the isNaN(getTime) check, and JSON.parse wrapped in try/catch; each yields
none exactly where the source yields undefined. -/
def parseValue (np : String → Option ℚ) (dp : String → Option Int)
    (jp : String → Option JsonVal) (value : String) (fieldType : FieldType) :
    Option JsValue :=
  match fieldType with
  | FieldType.number =>
    match np value with
    | none => none
    | some q => some (JsValue.num q)
  | FieldType.boolean => some (JsValue.bool (value == "true" || value == "1"))
  | FieldType.date =>
    match dp value with
    | none => none
    | some ms => some (JsValue.date ms)
  | FieldType.json =>
    match jp value with
    | none => none
    | some j => some (JsValue.json j)
  | FieldType.string => some (JsValue.str value)

/-- value.includes(","): the string contains a comma.  The JavaScript string
builtins used by buildWhereClause are modelled structurally on the character
list so that they compute by reduction. -/
def jsIncludesComma (s : String) : Bool :=
  s.toList.contains ','

/-- Helper for jsSplitComma: walk the characters, cutting at each comma; acc
holds the characters of the current piece in reverse. -/
def jsSplitCommaAux : List Char → List Char → List String
  | [], acc => [String.mk acc.reverse]
  | c :: rest, acc =>
    if c = ',' then String.mk acc.reverse :: jsSplitCommaAux rest []
    else jsSplitCommaAux rest (c :: acc)

/-- value.split(","): split on every comma, keeping empty pieces; the empty
string yields one empty piece, as in ECMAScript. -/
def jsSplitComma (s : String) : List String :=
  jsSplitCommaAux s.toList []

/-- v.trim(): strip leading and trailing whitespace. -/
def jsTrim (s : String) : String :=
  String.mk
    (((s.toList.dropWhile (fun c => c.isWhitespace)).reverse.dropWhile
        (fun c => c.isWhitespace)).reverse)

/-- key.endsWith(sfx). -/
def jsEndsWith (s sfx : String) : Bool :=
  let cs := s.toList
  let ts := sfx.toList
  decide (ts.length ≤ cs.length) && (cs.drop (cs.length - ts.length) == ts)

/-- Drop the last n characters (the suffix strip of
key.replace(/_min$|_max$/, "")). -/
def jsDropRight (s : String) (n : Nat) : String :=
  String.mk (s.toList.take (s.toList.length - n))

/-- Set a property of a JavaScript ordered string-keyed dictionary: replace
in place when the key is present, append otherwise.  Models both plain
object assignment (the where object) and Map.set. -/
def jsSet (m : List (String × α)) (k : String) (v : α) : List (String × α) :=
  if m.any (fun p => p.1 = k) then
    m.map (fun p => if p.1 = k then (k, v) else p)
  else
    m ++ [(k, v)]

/-- Read a property of a JavaScript ordered string-keyed dictionary. -/
def jsGet (m : List (String × α)) (k : String) : Option α :=
  (m.find? (fun p => p.1 = k)).map (fun p => p.2)

/-- The reserved pagination and ordering parameter names skipped by
buildWhereClause. -/
def reservedKeys : List String := ["limit", "offset", "order", "ascending"]

/-- URLSearchParams.getAll: all values recorded for a key, in entry order. -/
def getAllParams (params : List (String × String)) (key : String) : List String :=
  params.filterMap (fun p => if p.1 = key then some p.2 else none)

/-- The range-branch update in buildWhereClause:
where[baseField] = \x7b ...(where[baseField]), gte: parsedValue \x7d (and
likewise lte).  Spreading an absent value or a primitive contributes no
properties; spreading an in/gte/lte object keeps its properties. -/
def mergeRange (existing : Option WhereVal) (isMin : Bool) (v : JsValue) : WhereVal :=
  match existing with
  | some (WhereVal.obj i g l) =>
    if isMin then WhereVal.obj i (some v) l else WhereVal.obj i g (some v)
  | _ =>
    if isMin then WhereVal.obj none (some v) none else WhereVal.obj none none (some v)

/-- Field-type registry lookup (fieldTypes[key] on the object literal). -/
def lookupField (fieldTypes : List (String × FieldType)) (k : String) : Option FieldType :=
  (fieldTypes.find? (fun p => p.1 = k)).map (fun p => p.2)

/-- One iteration of the for-loop of buildWhereClause in server.ts over a
single (key, value) entry.  The state carries the where object under
construction and the processedKeys set (as a list). -/
def whereStep (np : String → Option ℚ) (dp : String → Option Int)
    (jp : String → Option JsonVal)
    (params : List (String × String)) (fieldTypes : List (String × FieldType))
    (st : List (String × WhereVal) × List String) (entry : String × String) :
    List (String × WhereVal) × List String :=
  let w := st.1
  let processed := st.2
  let key := entry.1
  let value := entry.2
  if key ∈ reservedKeys then st
  else if key ∈ processed then st
  else
    match lookupField fieldTypes key with
    | none => st
    | some fieldType =>
      if jsEndsWith key "_min" ∨ jsEndsWith key "_max" then
        -- key.replace(/_min$|_max$/, "") strips the four-character suffix
        let baseField := jsDropRight key 4
        match lookupField fieldTypes baseField with
        | none => st
        | some baseFieldType =>
          match parseValue np dp jp value baseFieldType with
          | none => st
          | some parsed =>
            (jsSet w baseField (mergeRange (jsGet w baseField) (jsEndsWith key "_min") parsed),
             processed)
      else
        let allValues := getAllParams params key
        if allValues.length > 1 ∨ (allValues.length = 1 ∧ jsIncludesComma value) then
          let values := allValues.flatMap (fun val =>
            if jsIncludesComma val then
              (jsSplitComma val).filterMap
                (fun v => parseValue np dp jp (jsTrim v) fieldType)
            else
              (parseValue np dp jp val fieldType).toList)
          let w2 :=
            if values.length > 0 then jsSet w key (WhereVal.obj (some values) none none)
            else w
          (w2, key :: processed)
        else
          match parseValue np dp jp value fieldType with
          | some parsed => (jsSet w key (WhereVal.prim parsed), key :: processed)
          | none => (w, key :: processed)

/-- buildWhereClause from server.ts: fold the for-loop body over the entries
of the parameter multi-map and return the where object. -/
def buildWhereClause (np : String → Option ℚ) (dp : String → Option Int)
    (jp : String → Option JsonVal)
    (params : List (String × String)) (fieldTypes : List (String × FieldType)) :
    List (String × WhereVal) :=
  (params.foldl (whereStep np dp jp params fieldTypes) ([], [])).1

/-- Trivial instantiation of the parseFloat parameter, usable where a
concrete platform is needed and the numeric parser is never consulted. -/
def npNone : String → Option ℚ := fun _ => none

/-- Trivial instantiation of the date-parse parameter. -/
def dpNone : String → Option Int := fun _ => none

/-- Trivial instantiation of the JSON-parse parameter. -/
def jpNone : String → Option JsonVal := fun _ => none

/-- Hexadecimal digit test used by the parseInt model. -/
def isHexDigitJS (c : Char) : Bool :=
  c.isDigit || ('a' ≤ c ∧ c ≤ 'f') || ('A' ≤ c ∧ c ≤ 'F')

/-- Numeric value of a hexadecimal digit. -/
def hexDigitVal (c : Char) : Nat :=
  if c.isDigit then c.toNat - '0'.toNat
  else if 'a' ≤ c ∧ c ≤ 'f' then c.toNat - 'a'.toNat + 10
  else c.toNat - 'A'.toNat + 10

/-- Accumulate a digit list into a natural number in the given base. -/
def digitsToNat (base : Nat) (digitVal : Char → Nat) (ds : List Char) : Nat :=
  ds.foldl (fun acc c => acc * base + digitVal c) 0

/-- Model of the ECMAScript builtin parseInt with no radix argument, as called
by handleMarkets and handleEvents: skip leading whitespace, read an optional
sign, auto-detect a 0x/0X hexadecimal literal, then take the longest digit
run; none models the NaN result produced when no digit follows. -/
def parseIntJS (s : String) : Option Int :=
  let cs := s.toList.dropWhile (fun c => c.isWhitespace)
  let signAndRest : Int × List Char :=
    match cs with
    | '-' :: rest => (-1, rest)
    | '+' :: rest => (1, rest)
    | _ => (1, cs)
  let sign := signAndRest.1
  let body := signAndRest.2
  match body with
  | '0' :: c :: rest =>
    if c = 'x' ∨ c = 'X' then
      let ds := rest.takeWhile isHexDigitJS
      if ds.isEmpty then none
      else some (sign * (digitsToNat 16 hexDigitVal ds : Int))
    else
      let ds := body.takeWhile (fun c => c.isDigit)
      some (sign * (digitsToNat 10 hexDigitVal ds : Int))
  | _ =>
    let ds := body.takeWhile (fun c => c.isDigit)
    if ds.isEmpty then none
    else some (sign * (digitsToNat 10 hexDigitVal ds : Int))

/-- params.get(k) || d: the JavaScript or-fallback applies when the parameter
is absent (null) or its value is the empty string (both falsy); any other
string, numeric or not, is passed through unchanged. -/
def jsOrDefault (raw : Option String) (d : String) : String :=
  match raw with
  | none => d
  | some s => if s = "" then d else s

/-- The limit computation of handleMarkets and handleEvents:
Math.min(parseInt(params.get("limit") || "100"), 1000).  none models the NaN
produced when the raw value is present, non-empty and non-numeric
(Math.min(NaN, 1000) is NaN). -/
def computeLimit (raw : Option String) : Option Int :=
  (parseIntJS (jsOrDefault raw "100")).map (fun n => min n 1000)

/-- The offset computation of handleMarkets and handleEvents:
parseInt(params.get("offset") || "0"). -/
def computeOffset (raw : Option String) : Option Int :=
  parseIntJS (jsOrDefault raw "0")

/-- MARKET_FIELD_TYPES from server.ts, entry for entry. -/
def MARKET_FIELD_TYPES : List (String × FieldType) := [
  ("id", FieldType.string),
  ("question", FieldType.string),
  ("conditionId", FieldType.string),
  ("slug", FieldType.string),
  ("twitterCardImage", FieldType.string),
  ("resolutionSource", FieldType.string),
  ("endDate", FieldType.date),
  ("category", FieldType.string),
  ("ammType", FieldType.string),
  ("liquidity", FieldType.string),
  ("sponsorName", FieldType.string),
  ("sponsorImage", FieldType.string),
  ("startDate", FieldType.date),
  ("xAxisValue", FieldType.string),
  ("yAxisValue", FieldType.string),
  ("denominationToken", FieldType.string),
  ("fee", FieldType.string),
  ("image", FieldType.string),
  ("icon", FieldType.string),
  ("lowerBound", FieldType.string),
  ("upperBound", FieldType.string),
  ("description", FieldType.string),
  ("outcomes", FieldType.string),
  ("outcomePrices", FieldType.string),
  ("volume", FieldType.string),
  ("active", FieldType.boolean),
  ("marketType", FieldType.string),
  ("formatType", FieldType.string),
  ("lowerBoundDate", FieldType.string),
  ("upperBoundDate", FieldType.string),
  ("closed", FieldType.boolean),
  ("marketMakerAddress", FieldType.string),
  ("createdBy", FieldType.number),
  ("updatedBy", FieldType.number),
  ("createdAt", FieldType.date),
  ("updatedAt", FieldType.date),
  ("closedTime", FieldType.string),
  ("wideFormat", FieldType.boolean),
  ("new", FieldType.boolean),
  ("mailchimpTag", FieldType.string),
  ("featured", FieldType.boolean),
  ("archived", FieldType.boolean),
  ("resolvedBy", FieldType.string),
  ("restricted", FieldType.boolean),
  ("marketGroup", FieldType.number),
  ("groupItemTitle", FieldType.string),
  ("groupItemThreshold", FieldType.string),
  ("questionID", FieldType.string),
  ("umaEndDate", FieldType.string),
  ("enableOrderBook", FieldType.boolean),
  ("orderPriceMinTickSize", FieldType.number),
  ("orderMinSize", FieldType.number),
  ("umaResolutionStatus", FieldType.string),
  ("curationOrder", FieldType.number),
  ("volumeNum", FieldType.number),
  ("liquidityNum", FieldType.number),
  ("endDateIso", FieldType.string),
  ("startDateIso", FieldType.string),
  ("umaEndDateIso", FieldType.string),
  ("hasReviewedDates", FieldType.boolean),
  ("readyForCron", FieldType.boolean),
  ("commentsEnabled", FieldType.boolean),
  ("volume24hr", FieldType.number),
  ("volume1wk", FieldType.number),
  ("volume1mo", FieldType.number),
  ("volume1yr", FieldType.number),
  ("gameStartTime", FieldType.string),
  ("secondsDelay", FieldType.number),
  ("clobTokenIds", FieldType.string),
  ("disqusThread", FieldType.string),
  ("shortOutcomes", FieldType.string),
  ("teamAID", FieldType.string),
  ("teamBID", FieldType.string),
  ("umaBond", FieldType.string),
  ("umaReward", FieldType.string),
  ("fpmmLive", FieldType.boolean),
  ("volume24hrAmm", FieldType.number),
  ("volume1wkAmm", FieldType.number),
  ("volume1moAmm", FieldType.number),
  ("volume1yrAmm", FieldType.number),
  ("volume24hrClob", FieldType.number),
  ("volume1wkClob", FieldType.number),
  ("volume1moClob", FieldType.number),
  ("volume1yrClob", FieldType.number),
  ("volumeAmm", FieldType.number),
  ("volumeClob", FieldType.number),
  ("liquidityAmm", FieldType.number),
  ("liquidityClob", FieldType.number),
  ("makerBaseFee", FieldType.number),
  ("takerBaseFee", FieldType.number),
  ("customLiveness", FieldType.number),
  ("acceptingOrders", FieldType.boolean),
  ("notificationsEnabled", FieldType.boolean),
  ("score", FieldType.number),
  ("imageOptimized", FieldType.json),
  ("iconOptimized", FieldType.json),
  ("creator", FieldType.string),
  ("ready", FieldType.boolean),
  ("funded", FieldType.boolean),
  ("pastSlugs", FieldType.string),
  ("readyTimestamp", FieldType.date),
  ("fundedTimestamp", FieldType.date),
  ("acceptingOrdersTimestamp", FieldType.date),
  ("competitive", FieldType.number),
  ("rewardsMinSize", FieldType.number),
  ("rewardsMaxSpread", FieldType.number),
  ("spread", FieldType.number),
  ("automaticallyResolved", FieldType.boolean),
  ("oneDayPriceChange", FieldType.number),
  ("oneHourPriceChange", FieldType.number),
  ("oneWeekPriceChange", FieldType.number),
  ("oneMonthPriceChange", FieldType.number),
  ("oneYearPriceChange", FieldType.number),
  ("lastTradePrice", FieldType.number),
  ("bestBid", FieldType.number),
  ("bestAsk", FieldType.number),
  ("automaticallyActive", FieldType.boolean),
  ("clearBookOnStart", FieldType.boolean),
  ("chartColor", FieldType.string),
  ("seriesColor", FieldType.string),
  ("showGmpSeries", FieldType.boolean),
  ("showGmpOutcome", FieldType.boolean),
  ("manualActivation", FieldType.boolean),
  ("negRiskOther", FieldType.boolean),
  ("gameId", FieldType.string),
  ("groupItemRange", FieldType.string),
  ("sportsMarketType", FieldType.string),
  ("line", FieldType.number),
  ("umaResolutionStatuses", FieldType.string),
  ("pendingDeployment", FieldType.boolean),
  ("deploying", FieldType.boolean),
  ("deployingTimestamp", FieldType.date),
  ("scheduledDeploymentTimestamp", FieldType.date),
  ("rfqEnabled", FieldType.boolean),
  ("eventStartTime", FieldType.date),
  ("eventId", FieldType.string)
]

/-- EVENT_FIELD_TYPES from server.ts, entry for entry. -/
def EVENT_FIELD_TYPES : List (String × FieldType) := [
  ("id", FieldType.string),
  ("ticker", FieldType.string),
  ("slug", FieldType.string),
  ("title", FieldType.string),
  ("subtitle", FieldType.string),
  ("description", FieldType.string),
  ("resolutionSource", FieldType.string),
  ("startDate", FieldType.date),
  ("creationDate", FieldType.date),
  ("endDate", FieldType.date),
  ("image", FieldType.string),
  ("icon", FieldType.string),
  ("active", FieldType.boolean),
  ("closed", FieldType.boolean),
  ("archived", FieldType.boolean),
  ("new", FieldType.boolean),
  ("featured", FieldType.boolean),
  ("restricted", FieldType.boolean),
  ("liquidity", FieldType.number),
  ("volume", FieldType.number),
  ("openInterest", FieldType.number),
  ("sortBy", FieldType.string),
  ("category", FieldType.string),
  ("subcategory", FieldType.string),
  ("isTemplate", FieldType.boolean),
  ("templateVariables", FieldType.string),
  ("publishedAt", FieldType.string),
  ("createdBy", FieldType.string),
  ("updatedBy", FieldType.string),
  ("createdAt", FieldType.date),
  ("updatedAt", FieldType.date),
  ("commentsEnabled", FieldType.boolean),
  ("competitive", FieldType.number),
  ("volume24hr", FieldType.number),
  ("volume1wk", FieldType.number),
  ("volume1mo", FieldType.number),
  ("volume1yr", FieldType.number),
  ("featuredImage", FieldType.string),
  ("disqusThread", FieldType.string),
  ("parentEventId", FieldType.string),
  ("enableOrderBook", FieldType.boolean),
  ("liquidityAmm", FieldType.number),
  ("liquidityClob", FieldType.number),
  ("negRisk", FieldType.boolean),
  ("negRiskMarketID", FieldType.string),
  ("negRiskFeeBips", FieldType.number),
  ("commentCount", FieldType.number),
  ("imageOptimized", FieldType.json),
  ("iconOptimized", FieldType.json),
  ("featuredImageOptimized", FieldType.json),
  ("cyom", FieldType.boolean),
  ("closedTime", FieldType.date),
  ("showAllOutcomes", FieldType.boolean),
  ("showMarketImages", FieldType.boolean),
  ("automaticallyResolved", FieldType.boolean),
  ("enableNegRisk", FieldType.boolean),
  ("automaticallyActive", FieldType.boolean),
  ("eventDate", FieldType.string),
  ("startTime", FieldType.date),
  ("eventWeek", FieldType.number),
  ("seriesSlug", FieldType.string),
  ("score", FieldType.string),
  ("elapsed", FieldType.string),
  ("period", FieldType.string),
  ("live", FieldType.boolean),
  ("ended", FieldType.boolean),
  ("finishedTimestamp", FieldType.date),
  ("gmpChartMode", FieldType.string),
  ("eventCreators", FieldType.json),
  ("tweetCount", FieldType.number),
  ("chats", FieldType.json),
  ("featuredOrder", FieldType.number),
  ("estimateValue", FieldType.boolean),
  ("cantEstimate", FieldType.boolean),
  ("estimatedValue", FieldType.string),
  ("templates", FieldType.json),
  ("spreadsMainLine", FieldType.number),
  ("totalsMainLine", FieldType.number),
  ("carouselMap", FieldType.string),
  ("pendingDeployment", FieldType.boolean),
  ("deploying", FieldType.boolean),
  ("deployingTimestamp", FieldType.date),
  ("scheduledDeploymentTimestamp", FieldType.date),
  ("gameStatus", FieldType.string)
]

/-- The slice of an upstream Polymarket event needed by the ingestion claims:
the primary key, the ended flag tested by the scrape filter, and one opaque
field standing for the remaining upstream payload carried through
unchanged. -/
structure PolymarketEvent where
  id : String
  ended : Option Bool
  payload : Nat
  deriving DecidableEq, Repr

/-- The per-page filter of upsertEvents: keep events with ended !== true. -/
def nonEnded (items : List PolymarketEvent) : List PolymarketEvent :=
  items.filter (fun e => e.ended != some true)

/-- The in-offset-order scan over one round of fetched pages in upsertEvents
(the for-loop over batchResults): an empty page marks the end and contributes
nothing, a non-empty page contributes its non-ended events, and a page
shorter than the limit marks the end after contributing.  Returns the round
output together with the foundEnd flag. -/
def scanRound (limit : Nat) : List (List PolymarketEvent) → List PolymarketEvent × Bool
  | [] => ([], false)
  | items :: rest =>
    if items.length = 0 then ([], true)
    else if items.length < limit then (nonEnded items, true)
    else
      let r := scanRound limit rest
      (nonEnded items ++ r.1, r.2)

/-- Index of the first page of a round that is empty or shorter than the page
limit, stated from the specification side as the first end-of-stream
signal. -/
def firstStop (limit : Nat) : List (List α) → Option Nat
  | [] => none
  | p :: rest =>
    if p.length = 0 ∨ p.length < limit then some 0
    else (firstStop limit rest).map (fun i => i + 1)

/-- Specification-side description of a round output: the concatenated
non-ended records of the pages up to and including the first end-signalling
page, all pages when none signals. -/
def roundOutputSpec (limit : Nat) (pages : List (List PolymarketEvent)) :
    List PolymarketEvent :=
  let contributing :=
    match firstStop limit pages with
    | none => pages
    | some i => pages.take (i + 1)
  (contributing.map nonEnded).flatten

/-- The offsets of one round of page requests in upsertEvents:
base, base+limit, ..., base+(W-1)*limit. -/
def roundOffsets (limit W base : Nat) : List Nat :=
  (List.range W).map (fun i => base + i * limit)

/-- One round of pages as fetched by upsertEvents: the source maps an offset
to the page returned at that offset, and the W pages of a round are taken in
offset order (Promise.all preserves the order of batchOffsets). -/
def pagerRound (source : Nat → List PolymarketEvent) (limit W base : Nat) :
    List (List PolymarketEvent) :=
  (roundOffsets limit W base).map source

/-- The while-hasMore loop of upsertEvents, returning every record the pager
appends across rounds.  The fuel argument bounds the number of rounds only so
that the model is total; a round that finds the end stops regardless of
remaining fuel, and otherwise the base offset advances by W*limit. -/
def pagerRun (source : Nat → List PolymarketEvent) (limit W : Nat) :
    Nat → Nat → List PolymarketEvent
  | 0, _ => []
  | fuel + 1, base =>
    let r := scanRound limit (pagerRound source limit W base)
    if r.2 then r.1
    else r.1 ++ pagerRun source limit W fuel (base + W * limit)

/-- The offsets of every page request the pager issues, across rounds, in
issue order. -/
def pagerRequests (source : Nat → List PolymarketEvent) (limit W : Nat) :
    Nat → Nat → List Nat
  | 0, _ => []
  | fuel + 1, base =>
    let r := scanRound limit (pagerRound source limit W base)
    if r.2 then roundOffsets limit W base
    else roundOffsets limit W base ++ pagerRequests source limit W fuel (base + W * limit)

/-- A fixed record used by the mocked upstream source. -/
def mockEvent : PolymarketEvent := { id := "e", ended := some false, payload := 0 }

/-- Mocked upstream source of the SourcePager termination scenario: exactly
three full pages of 200 records at offsets 0, 200 and 400, then empty. -/
def mockSource3 : Nat → List PolymarketEvent := fun offset =>
  if offset < 600 then List.replicate 200 mockEvent else []

/-- The deduplication step of bulkUpsertEvents and bulkUpsertMarkets:
[...new Map(l.map(e => [key(e), e])).values()] — a JavaScript Map keyed by id,
iterated in key insertion order, where a repeated key keeps its first
position but takes the last value. -/
def jsMapOf (key : α → String) (l : List α) : List (String × α) :=
  l.foldl (fun m e => jsSet m (key e) e) []

/-- The values of the Map, in key insertion order: the deduplicated record
list handed to the chunk loop. -/
def dedupeBy (key : α → String) (l : List α) : List α :=
  (jsMapOf key l).map (fun p => p.2)

/-- Chunking of the deduplicated rows into batches of n
(for (i = 0; i < deduped.length; i += BATCH_SIZE) with slice(i, i+n)).
Structured with a fuel argument equal to the list length so the definition
computes by reduction; the source BATCH_SIZE constants 500 and 400 are
positive, so fuel is never the binding constraint. -/
def chunksOfAux (n : Nat) : Nat → List α → List (List α)
  | 0, _ => []
  | _ + 1, [] => []
  | fuel + 1, x :: xs => (x :: xs).take n :: chunksOfAux n fuel ((x :: xs).drop n)

/-- The list of batches of size at most n covering l in order. -/
def chunksOf (n : Nat) (l : List α) : List (List α) :=
  chunksOfAux n l.length l

/-- The batches executed by the bulk upserter on input l: deduplicate by
primary key, then slice into chunks of the batch size. -/
def bulkBatches (n : Nat) (key : α → String) (l : List α) : List (List α) :=
  chunksOf n (dedupeBy key l)

/-- The last occurrence in l of an element with the given key, i.e. the
record whose values win for that primary key. -/
def lastOccurrence (key : α → String) (l : List α) (k : String) : Option α :=
  l.reverse.find? (fun e => key e = k)

/-- The stored table, as the mapping primary key → row that the relational
store maintains. -/
def Store (α : Type) : Type := String → Option α

/-- Effect on the store of one row of an INSERT ... ON CONFLICT ("id") DO
UPDATE statement: insert the row, and on a primary-key conflict overwrite
every non-key column with the incoming value — since the key column agrees,
the whole row is replaced. -/
def upsertRow (key : α → String) (s : Store α) (e : α) : Store α :=
  fun k => if k = key e then some e else s k

/-- Effect of one chunk statement: every row of the chunk applied in order. -/
def applyChunk (key : α → String) (s : Store α) (chunk : List α) : Store α :=
  chunk.foldl (upsertRow key) s

/-- The whole bulk upsert operation of bulkUpsertEvents or bulkUpsertMarkets
on the store, with every chunk statement succeeding. -/
def bulkUpsertStore (n : Nat) (key : α → String) (l : List α) (s : Store α) : Store α :=
  (bulkBatches n key l).foldl (applyChunk key) s

/-- The chunk loop of bulkUpsertEvents and bulkUpsertMarkets with an explicit
failure oracle: fails i says whether the write of the i-th chunk throws.  A
failing chunk leaves the store unchanged and adds its row count to
errorCount; a succeeding chunk is applied and adds its row count to
successCount.  The loop always continues to the next chunk and returns
normally. -/
def runChunksAux (key : α → String) (fails : Nat → Bool) :
    Nat → Store α → Nat → Nat → List (List α) → Store α × Nat × Nat
  | _, s, succ, err, [] => (s, succ, err)
  | i, s, succ, err, c :: cs =>
    if fails i then runChunksAux key fails (i + 1) s succ (err + c.length) cs
    else runChunksAux key fails (i + 1) (applyChunk key s c) (succ + c.length) err cs

/-- bulkUpsertEvents / bulkUpsertMarkets under a failure oracle: the final
store and the (successCount, errorCount) pair returned to the caller. -/
def runBulk (n : Nat) (key : α → String) (fails : Nat → Bool) (l : List α)
    (s : Store α) : Store α × Nat × Nat :=
  runChunksAux key fails 0 s 0 0 (bulkBatches n key l)

/-- Rows of the failing chunks: the sum of the sizes of the chunks whose
write throws, chunk indices counted from i. -/
def failRows (fails : Nat → Bool) : Nat → List (List α) → Nat
  | _, [] => 0
  | i, c :: cs => (if fails i then c.length else 0) + failRows fails (i + 1) cs

/-- Rows of the succeeding chunks. -/
def okRows (fails : Nat → Bool) : Nat → List (List α) → Nat
  | _, [] => 0
  | i, c :: cs => (if fails i then 0 else c.length) + okRows fails (i + 1) cs

/-- The rows of the succeeding chunks in order: what actually reaches the
store when the chunks at the failing indices throw. -/
def successfulRows (fails : Nat → Bool) : Nat → List (List α) → List α
  | _, [] => []
  | i, c :: cs => (if fails i then [] else c) ++ successfulRows fails (i + 1) cs

/-- Sample records for concrete witnesses: two records sharing one id. -/
def sampleA1 : PolymarketEvent := { id := "a", ended := none, payload := 1 }

/-- Sample record with a distinct id. -/
def sampleB : PolymarketEvent := { id := "b", ended := none, payload := 2 }

/-- The later record sharing the id of sampleA1; its values must win. -/
def sampleA2 : PolymarketEvent := { id := "a", ended := none, payload := 3 }

/-- The empty store. -/
def emptyStore : Store PolymarketEvent := fun _ => none

/-- A concrete instantiation of the parseFloat parameter recognising only the
literal "5", used to exhibit a component that fails to parse next to one that
succeeds. -/
def np5 : String → Option ℚ := fun s => if s = "5" then some 5 else none

/-- C1: the claim states that a parameter f_min=v / f_max=v on a registered
Number or Date field f yields a Gte/Lte predicate even though the suffixed
key is not itself a registered field name.  On the code this fails: the
fieldTypes[key] lookup at the top of the loop runs before the suffix
handling, finds no entry for the suffixed key, and skips it, so the range
branch is unreachable and the produced where clause is empty — contradicting
the range-query examples documented in the file header and the API
documentation (code bug).  volumeNum is a registered Number field, the
suffixed keys are unregistered, and the produced FilterSpec carries no
predicate at all. -/
theorem c1_range_params_dropped :
    ∀ (np : String → Option ℚ) (dp : String → Option Int) (jp : String → Option JsonVal),
      lookupField MARKET_FIELD_TYPES "volumeNum" = some FieldType.number
    ∧ lookupField MARKET_FIELD_TYPES "volumeNum_min" = none
    ∧ lookupField MARKET_FIELD_TYPES "volumeNum_max" = none
    ∧ buildWhereClause np dp jp
        [("volumeNum_min", "1000"), ("volumeNum_max", "10000")] MARKET_FIELD_TYPES = [] := by
  intro np dp jp
  exact ⟨rfl, rfl, rfl, rfl⟩

/-- C2 counterexample: the claim says a negative or non-numeric limit falls
back to 100.  On the code, limit=-3 computes to -3 and limit=abc computes to
NaN (modelled none), because the or-fallback applies to the raw parameter,
not to the parse result. -/
theorem c2_counterexample :
    computeLimit (some "-3") = some (-3)
  ∧ computeLimit (some "abc") = none
  ∧ computeLimit (some "-3") ≠ some 100
  ∧ computeLimit (some "abc") ≠ some 100
  ∧ computeOffset (some "abc") ≠ some 0 := by
  refine ⟨rfl, rfl, by decide, by decide, by decide⟩

/-- C2 amended: a numeric limit is always clamped to at most 1000 and
limit=5000 yields 1000; an absent or empty limit falls back to 100 and an
absent or empty offset to 0; a negative numeric limit is kept as given
(limit=-3 yields -3); a present non-numeric limit or offset yields NaN
(modelled none) rather than the default; the computation is a total function
and never crashes. -/
theorem c2_pagination_amended :
    (∀ (raw : Option String) (n : Int), computeLimit raw = some n → n ≤ 1000)
  ∧ computeLimit (some "5000") = some 1000
  ∧ computeLimit none = some 100
  ∧ computeLimit (some "") = some 100
  ∧ computeLimit (some "-3") = some (-3)
  ∧ computeLimit (some "abc") = none
  ∧ computeOffset none = some 0
  ∧ computeOffset (some "") = some 0
  ∧ computeOffset (some "abc") = none := by
  refine ⟨?_, rfl, rfl, rfl, rfl, rfl, rfl, rfl, rfl⟩
  intro raw n h
  unfold computeLimit at h
  cases hp : parseIntJS (jsOrDefault raw "100") with
  | none => rw [hp] at h; simp at h
  | some m =>
    rw [hp] at h
    simp at h
    rcases h with rfl
    exact min_le_right m 1000

/-- C2 witness: the amended clamp bound applied at the concrete input
limit=5000. -/
theorem c2_pagination_amended_witness :
    computeLimit (some "5000") = some 1000 ∧ (1000 : Int) ≤ 1000 :=
  ⟨rfl, c2_pagination_amended.1 (some "5000") 1000 rfl⟩

/-- C8: parseValue is a total function into Option (never an exception);
a Boolean parse always succeeds and yields true exactly on the literals
"true" and "1" (every other string coerces to false, so a boolean filter is
never dropped); a String parse returns the value verbatim; only the Number,
Date and Json types can yield undefined, and they do so exactly when the
respective platform parser signals an invalid input. -/
theorem c8_parse_value_total :
    ∀ (np : String → Option ℚ) (dp : String → Option Int) (jp : String → Option JsonVal)
      (s : String),
      parseValue np dp jp s FieldType.boolean = some (JsValue.bool (s == "true" || s == "1"))
    ∧ parseValue np dp jp s FieldType.string = some (JsValue.str s)
    ∧ (∀ ft : FieldType, parseValue np dp jp s ft = none →
        ft = FieldType.number ∨ ft = FieldType.date ∨ ft = FieldType.json)
    ∧ (parseValue np dp jp s FieldType.number = none ↔ np s = none)
    ∧ (parseValue np dp jp s FieldType.date = none ↔ dp s = none)
    ∧ (parseValue np dp jp s FieldType.json = none ↔ jp s = none) := by
  intro np dp jp s
  refine ⟨rfl, rfl, ?_, ?_, ?_, ?_⟩
  · intro ft h
    cases ft with
    | number => exact Or.inl rfl
    | date => exact Or.inr (Or.inl rfl)
    | json => exact Or.inr (Or.inr rfl)
    | boolean => simp [parseValue] at h
    | string => simp [parseValue] at h
  · unfold parseValue
    cases np s <;> simp
  · unfold parseValue
    cases dp s <;> simp
  · unfold parseValue
    cases jp s <;> simp

/-- C8 witness: the only-fallible-types conjunct applied at a concrete
platform and input on which the Number parse is undefined. -/
theorem c8_parse_value_total_witness :
    FieldType.number = FieldType.number ∨ FieldType.number = FieldType.date
      ∨ FieldType.number = FieldType.json :=
  (c8_parse_value_total npNone dpNone jpNone "abc").2.2.1 FieldType.number rfl

/-- C7 counterexample: the claim says the comma form ?f=a,b and the
repeated-key form ?f=a&f=b always translate to the same In predicate for
every pair of parseable values.  On the code the comma form trims each split
component while the repeated-key form does not, so for the parseable string
values " x" and "b" on the registered String field category the two forms
produce different In sets. -/
theorem c7_counterexample :
    buildWhereClause npNone dpNone jpNone [("category", " x,b")] MARKET_FIELD_TYPES
      = [("category", WhereVal.obj (some [JsValue.str "x", JsValue.str "b"]) none none)]
  ∧ buildWhereClause npNone dpNone jpNone [("category", " x"), ("category", "b")] MARKET_FIELD_TYPES
      = [("category", WhereVal.obj (some [JsValue.str " x", JsValue.str "b"]) none none)]
  ∧ buildWhereClause npNone dpNone jpNone [("category", " x,b")] MARKET_FIELD_TYPES
      ≠ buildWhereClause npNone dpNone jpNone [("category", " x"), ("category", "b")] MARKET_FIELD_TYPES := by
  have hA : buildWhereClause npNone dpNone jpNone [("category", " x,b")] MARKET_FIELD_TYPES
      = [("category", WhereVal.obj (some [JsValue.str "x", JsValue.str "b"]) none none)] := rfl
  have hB : buildWhereClause npNone dpNone jpNone [("category", " x"), ("category", "b")] MARKET_FIELD_TYPES
      = [("category", WhereVal.obj (some [JsValue.str " x", JsValue.str "b"]) none none)] := rfl
  refine ⟨hA, hB, ?_⟩
  rw [hA, hB]
  intro h
  simp only [List.cons.injEq, Prod.mk.injEq, WhereVal.obj.injEq, Option.some.injEq,
    JsValue.str.injEq, and_true] at h
  exact absurd h.2 (by decide)

/-- C7 amended: the comma form and the repeated-key form translate to the
same In(f, [a, b]) predicate, neither value dropped, provided the two values
carry no leading or trailing whitespace (the comma form trims each split
component, the repeated-key form does not) and contain no comma themselves;
and whenever at least one component parses, an In predicate is emitted even
if only one value survives. -/
theorem c7_array_forms_amended :
    (∀ (np : String → Option ℚ) (dp : String → Option Int) (jp : String → Option JsonVal)
       (fieldTypes : List (String × FieldType)) (ft : FieldType)
       (key v a b : String) (va vb : JsValue),
      lookupField fieldTypes key = some ft →
      key ∉ reservedKeys →
      jsEndsWith key "_min" = false → jsEndsWith key "_max" = false →
      jsIncludesComma v = true →
      jsSplitComma v = [a, b] →
      jsTrim a = a → jsTrim b = b →
      jsIncludesComma a = false → jsIncludesComma b = false →
      parseValue np dp jp a ft = some va →
      parseValue np dp jp b ft = some vb →
      buildWhereClause np dp jp [(key, v)] fieldTypes
          = [(key, WhereVal.obj (some [va, vb]) none none)]
        ∧ buildWhereClause np dp jp [(key, a), (key, b)] fieldTypes
          = [(key, WhereVal.obj (some [va, vb]) none none)])
  ∧ (∀ (np : String → Option ℚ) (dp : String → Option Int) (jp : String → Option JsonVal)
       (fieldTypes : List (String × FieldType)) (ft : FieldType)
       (key a b : String) (va : JsValue),
      lookupField fieldTypes key = some ft →
      key ∉ reservedKeys →
      jsEndsWith key "_min" = false → jsEndsWith key "_max" = false →
      jsIncludesComma a = false → jsIncludesComma b = false →
      parseValue np dp jp a ft = some va →
      parseValue np dp jp b ft = none →
      buildWhereClause np dp jp [(key, a), (key, b)] fieldTypes
        = [(key, WhereVal.obj (some [va]) none none)]) := by
  constructor
  · intro np dp jp fieldTypes ft key v a b va vb hft hres hmin hmax hv hsplit hta htb hca hcb hpa hpb
    constructor
    · simp [buildWhereClause, whereStep, hft, hres, hmin, hmax, hv, hsplit, hta, htb,
        hpa, hpb, getAllParams, jsSet]
    · simp [buildWhereClause, whereStep, hft, hres, hmin, hmax, hca, hcb,
        hpa, hpb, getAllParams, jsSet]
  · intro np dp jp fieldTypes ft key a b va hft hres hmin hmax hca hcb hpa hpb
    simp [buildWhereClause, whereStep, hft, hres, hmin, hmax, hca, hcb,
      hpa, hpb, getAllParams, jsSet]

/-- C7 witness: both amended parts at concrete inputs — the equal forms on
the String field category with components x and y, and the one-survivor case
on the Number field volumeNum where only the component 5 parses. -/
theorem c7_array_forms_amended_witness :
    (buildWhereClause npNone dpNone jpNone [("category", "x,y")] MARKET_FIELD_TYPES
        = [("category", WhereVal.obj (some [JsValue.str "x", JsValue.str "y"]) none none)]
      ∧ buildWhereClause npNone dpNone jpNone [("category", "x"), ("category", "y")] MARKET_FIELD_TYPES
        = [("category", WhereVal.obj (some [JsValue.str "x", JsValue.str "y"]) none none)])
  ∧ buildWhereClause np5 dpNone jpNone [("volumeNum", "5"), ("volumeNum", "z")] MARKET_FIELD_TYPES
      = [("volumeNum", WhereVal.obj (some [JsValue.num 5]) none none)] :=
  ⟨c7_array_forms_amended.1 npNone dpNone jpNone MARKET_FIELD_TYPES FieldType.string
      "category" "x,y" "x" "y" (JsValue.str "x") (JsValue.str "y")
      rfl (by decide) rfl rfl rfl rfl rfl rfl rfl rfl rfl rfl,
    c7_array_forms_amended.2 np5 dpNone jpNone MARKET_FIELD_TYPES FieldType.number
      "volumeNum" "5" "z" (JsValue.num 5)
      rfl (by decide) rfl rfl rfl rfl rfl rfl⟩

/-- Helper: the in-order scan of one round equals its specification-side
description — concatenated non-ended records of the pages up to and
including the first empty-or-short page (all pages when none is), with the
end flag set exactly when such a page exists. -/
theorem scanRound_eq_spec (limit : Nat) (pages : List (List PolymarketEvent)) :
    scanRound limit pages = (roundOutputSpec limit pages, (firstStop limit pages).isSome) := by
  induction pages with
  | nil => simp [scanRound, roundOutputSpec, firstStop]
  | cons items rest ih =>
    by_cases h0 : items.length = 0
    · have hitems : items = [] := List.length_eq_zero.mp h0
      simp [scanRound, roundOutputSpec, firstStop, h0, hitems, nonEnded]
    · by_cases h1 : items.length < limit
      · simp [scanRound, roundOutputSpec, firstStop, h0, h1]
      · rw [roundOutputSpec]
        cases hfs : firstStop limit rest with
        | none =>
          simp [scanRound, h0, h1, ih, roundOutputSpec, firstStop, hfs]
        | some i =>
          simp [scanRound, h0, h1, ih, roundOutputSpec, firstStop, hfs]

/-- C3: in every pager round the W fetched results are combined strictly in
offset order: the scan stops at the first page that is empty or shorter than
the limit — a short page still contributes its own (non-ended) records, an
empty page contributes nothing, and every page at a higher offset in the
round is excluded; when such a page exists the pager terminates after this
round, and otherwise the base offset advances by exactly W times the page
limit for the next round. -/
theorem c3_round_scan_in_order :
    ∀ (limit W base fuel : Nat) (source : Nat → List PolymarketEvent)
      (pages : List (List PolymarketEvent)),
      scanRound limit pages = (roundOutputSpec limit pages, (firstStop limit pages).isSome)
    ∧ ((firstStop limit (pagerRound source limit W base)).isSome →
        pagerRun source limit W (fuel + 1) base
          = roundOutputSpec limit (pagerRound source limit W base))
    ∧ (firstStop limit (pagerRound source limit W base) = none →
        pagerRun source limit W (fuel + 1) base
          = roundOutputSpec limit (pagerRound source limit W base)
            ++ pagerRun source limit W fuel (base + W * limit)) := by
  intro limit W base fuel source pages
  refine ⟨scanRound_eq_spec limit pages, ?_, ?_⟩
  · intro h
    simp [pagerRun, scanRound_eq_spec, h]
  · intro h
    simp [pagerRun, scanRound_eq_spec, h]

/-- C3 witness: the two round-transition conjuncts at concrete inputs — an
immediately-empty source finds its end in the first round, and an all-full
source advances the base by W times the limit. -/
theorem c3_round_scan_in_order_witness :
    pagerRun (fun _ => []) 2 3 (4 + 1) 0 = roundOutputSpec 2 (pagerRound (fun _ => []) 2 3 0)
  ∧ pagerRun (fun _ => List.replicate 2 mockEvent) 2 3 (0 + 1) 0
      = roundOutputSpec 2 (pagerRound (fun _ => List.replicate 2 mockEvent) 2 3 0)
        ++ pagerRun (fun _ => List.replicate 2 mockEvent) 2 3 0 (0 + 3 * 2) :=
  ⟨(c3_round_scan_in_order 2 3 0 4 (fun _ => []) []).2.1 (by decide),
   (c3_round_scan_in_order 2 3 0 0 (fun _ => List.replicate 2 mockEvent) []).2.2 (by decide)⟩

set_option maxRecDepth 40000 in
/-- Helper: the first round of the mocked three-full-pages source evaluates
to the 600 records of the three full pages together with the end flag. -/
theorem mockSource3_scan :
    scanRound 200 (pagerRound mockSource3 200 10 0) = (List.replicate 600 mockEvent, true) := by
  decide

set_option maxRecDepth 40000 in
/-- Helper: the first end signal of the mocked source is the empty page at
round index 3, offset 600. -/
theorem mockSource3_firstStop :
    firstStop 200 (pagerRound mockSource3 200 10 0) = some 3 := by
  decide

/-- C4 counterexample: the claim says the pager never issues a page request
at an offset past the page that first signaled end-of-stream.  With the
mocked source of three full pages (limit 200) followed by emptiness, the
first end signal is the empty page at offset 600 (round index 3), yet the
first round speculatively issues all ten window requests, including offset
800 which lies past it. -/
theorem c4_counterexample :
    800 ∈ pagerRequests mockSource3 200 10 2 0
  ∧ firstStop 200 (pagerRound mockSource3 200 10 0) = some 3
  ∧ (roundOffsets 200 10 0).getD 3 0 = 600
  ∧ 600 < 800 := by
  refine ⟨?_, mockSource3_firstStop, by decide, by decide⟩
  rw [pagerRequests, mockSource3_scan]
  simp
  decide

/-- C4 amended: with the mocked upstream of exactly three full pages then an
empty page, draining stops after the third page — the output is exactly the
600 records of the first three pages, for any round budget — and the pager
never issues a request beyond the concurrency window of the round that
signaled the end: every issued offset lies in the first round window
base..base+(W-1)*limit, so no request of a later round is ever issued
(within the signaling round, up to W-1 requests past the end page are issued
speculatively before any result is seen). -/
theorem c4_pager_window_amended :
    (∀ fuel : Nat, pagerRun mockSource3 200 10 (fuel + 1) 0 = List.replicate 600 mockEvent)
  ∧ (∀ fuel : Nat, pagerRequests mockSource3 200 10 (fuel + 1) 0 = roundOffsets 200 10 0)
  ∧ (∀ o ∈ roundOffsets 200 10 0, o < 0 + 10 * 200) := by
  refine ⟨fun fuel => ?_, fun fuel => ?_, by decide⟩
  · rw [pagerRun, mockSource3_scan]
    rfl
  · rw [pagerRequests, mockSource3_scan]
    rfl

/-- C4 witness: the amended statements at concrete inputs — one round of
budget, and the window bound discharged at the largest issued offset. -/
theorem c4_pager_window_amended_witness :
    pagerRun mockSource3 200 10 1 0 = List.replicate 600 mockEvent
  ∧ (1800 : Nat) < 0 + 10 * 200 :=
  ⟨c4_pager_window_amended.1 0, c4_pager_window_amended.2.2 1800 (by decide)⟩

/-- Helper: the key sequence of a Map after one set — unchanged when the key
was present, extended by the key at the end when fresh. -/
theorem keys_jsSet (m : List (String × α)) (k : String) (v : α) :
    (jsSet m k v).map (fun p => p.1)
      = if m.any (fun p => p.1 = k) then m.map (fun p => p.1)
        else m.map (fun p => p.1) ++ [k] := by
  unfold jsSet
  split
  · rw [List.map_map]
    apply List.map_congr_left
    intro p hp
    by_cases hpk : p.1 = k
    · simp only [Function.comp_apply, if_pos hpk]
      exact hpk.symm
    · simp only [Function.comp_apply, if_neg hpk]
  · simp

/-- Helper: an entry of a Map after one set is either the new entry or an old
entry at a different key. -/
theorem mem_jsSet {m : List (String × α)} {k : String} {v : α} {q : String × α}
    (hq : q ∈ jsSet m k v) : q = (k, v) ∨ (q ∈ m ∧ q.1 ≠ k) := by
  unfold jsSet at hq
  split at hq
  · rcases List.mem_map.mp hq with ⟨p, hp, hpe⟩
    by_cases hpk : p.1 = k
    · rw [if_pos hpk] at hpe
      exact Or.inl hpe.symm
    · rw [if_neg hpk] at hpe
      exact Or.inr (hpe ▸ ⟨hp, hpk⟩)
  · rcases List.mem_append.mp hq with h | h
    · refine Or.inr ⟨h, fun hk => ?_⟩
      rename_i hany
      exact hany (List.any_eq_true.mpr ⟨q, h, by simp [hk]⟩)
    · exact Or.inl (by simpa using h)

/-- Helper: feeding one more record into the Map is one set. -/
theorem jsMapOf_append_single (key : α → String) (l : List α) (e : α) :
    jsMapOf key (l ++ [e]) = jsSet (jsMapOf key l) (key e) e := by
  simp [jsMapOf, List.foldl_append]

/-- Helper: the last occurrence after appending one record — the appended
record when its key matches, the previous last occurrence otherwise. -/
theorem lastOccurrence_append_single (key : α → String) (l : List α) (e : α) (k : String) :
    lastOccurrence key (l ++ [e]) k
      = if key e = k then some e else lastOccurrence key l k := by
  unfold lastOccurrence
  rw [List.reverse_append]
  by_cases hk : key e = k
  · simp [hk]
  · simp [hk]

/-- Helper: the dedup Map invariant — its key sequence has no duplicates,
every entry is keyed by its own record and holds the last input occurrence
for that key, and its key set is exactly the key set of the input. -/
theorem jsMapOf_invariant (key : α → String) (l : List α) :
    ((jsMapOf key l).map (fun p => p.1)).Nodup
  ∧ (∀ q ∈ jsMapOf key l, q.1 = key q.2 ∧ lastOccurrence key l q.1 = some q.2)
  ∧ (∀ k, k ∈ (jsMapOf key l).map (fun p => p.1) ↔ k ∈ l.map key) := by
  induction l using List.reverseRecOn with
  | nil => simp [jsMapOf, lastOccurrence]
  | append_singleton l e ih =>
    obtain ⟨hnd, hmem, hkeys⟩ := ih
    rw [jsMapOf_append_single]
    by_cases hany : (jsMapOf key l).any (fun p => p.1 = key e) = true
    · have hke : key e ∈ (jsMapOf key l).map (fun p => p.1) := by
        rcases List.any_eq_true.mp hany with ⟨p, hp, hpk⟩
        exact List.mem_map.mpr ⟨p, hp, by simpa using hpk⟩
      refine ⟨?_, ?_, ?_⟩
      · rw [keys_jsSet, if_pos hany]
        exact hnd
      · intro q hq
        rcases mem_jsSet hq with rfl | ⟨hq', hqk⟩
        · exact ⟨rfl, by rw [lastOccurrence_append_single]; simp⟩
        · obtain ⟨h1, h2⟩ := hmem q hq'
          refine ⟨h1, ?_⟩
          rw [lastOccurrence_append_single, if_neg (fun he => hqk he.symm)]
          exact h2
      · intro k
        rw [keys_jsSet, if_pos hany, List.map_append, List.mem_append]
        constructor
        · intro h
          exact Or.inl ((hkeys k).mp h)
        · rintro (h | h)
          · exact (hkeys k).mpr h
          · simp at h
            exact h ▸ hke
    · have hke : key e ∉ (jsMapOf key l).map (fun p => p.1) := by
        intro h
        rcases List.mem_map.mp h with ⟨p, hp, hpk⟩
        exact hany (List.any_eq_true.mpr ⟨p, hp, by simp [hpk]⟩)
      refine ⟨?_, ?_, ?_⟩
      · rw [keys_jsSet, if_neg hany, List.nodup_append]
        exact ⟨hnd, List.nodup_singleton _, by simpa [List.disjoint_singleton] using hke⟩
      · intro q hq
        rcases mem_jsSet hq with rfl | ⟨hq', hqk⟩
        · exact ⟨rfl, by rw [lastOccurrence_append_single]; simp⟩
        · obtain ⟨h1, h2⟩ := hmem q hq'
          refine ⟨h1, ?_⟩
          rw [lastOccurrence_append_single, if_neg (fun he => hqk he.symm)]
          exact h2
      · intro k
        rw [keys_jsSet, if_neg hany, List.map_append, List.mem_append, List.mem_append]
        constructor
        · rintro (h | h)
          · exact Or.inl ((hkeys k).mp h)
          · exact Or.inr (by simpa using h)
        · rintro (h | h)
          · exact Or.inl ((hkeys k).mpr h)
          · exact Or.inr (by simpa using h)

/-- Helper: every chunk is a sublist of the chunked list. -/
theorem chunksOfAux_sublist {n : Nat} :
    ∀ (fuel : Nat) (l c : List α), c ∈ chunksOfAux n fuel l → c.Sublist l := by
  intro fuel
  induction fuel with
  | zero => intro l c hc; simp [chunksOfAux] at hc
  | succ fuel ih =>
    intro l c hc
    cases l with
    | nil => simp [chunksOfAux] at hc
    | cons x xs =>
      rw [chunksOfAux] at hc
      rcases List.mem_cons.mp hc with rfl | hc'
      · exact List.take_sublist n (x :: xs)
      · exact (ih _ _ hc').trans (List.drop_sublist n (x :: xs))

/-- Helper: with a positive chunk size and enough fuel, the chunks
concatenate back to the chunked list. -/
theorem chunksOfAux_flatten {n : Nat} (hn : 0 < n) :
    ∀ (fuel : Nat) (l : List α), l.length ≤ fuel → (chunksOfAux n fuel l).flatten = l := by
  intro fuel
  induction fuel with
  | zero =>
    intro l hl
    have : l = [] := List.length_eq_zero.mp (Nat.le_zero.mp hl)
    simp [this, chunksOfAux]
  | succ fuel ih =>
    intro l hl
    cases l with
    | nil => simp [chunksOfAux]
    | cons x xs =>
      rw [chunksOfAux, List.flatten_cons, ih]
      · exact List.take_append_drop n (x :: xs)
      · rw [List.length_drop]
        simp only [List.length_cons] at hl ⊢
        omega

/-- C5: every batch the bulk upserter executes contains at most one row per
primary key (its key sequence has no duplicates), and the row kept for a
duplicated key is the one built from the last input occurrence of that
key. -/
theorem c5_batch_dedup_last_wins :
    ∀ (n : Nat) (key : α → String) (l : List α) (batch : List α),
      batch ∈ bulkBatches n key l →
      (batch.map key).Nodup ∧ ∀ e ∈ batch, lastOccurrence key l (key e) = some e := by
  intro n key l batch hb
  have hsub : batch.Sublist (dedupeBy key l) := by
    unfold bulkBatches chunksOf at hb
    exact chunksOfAux_sublist _ _ _ hb
  obtain ⟨hnd, hmem, -⟩ := jsMapOf_invariant key l
  constructor
  · have hkeys : (dedupeBy key l).map key = (jsMapOf key l).map (fun p => p.1) := by
      unfold dedupeBy
      rw [List.map_map]
      apply List.map_congr_left
      intro q hq
      exact ((hmem q hq).1).symm
    have hms : (batch.map key).Sublist ((dedupeBy key l).map key) := hsub.map key
    rw [hkeys] at hms
    exact hnd.sublist hms
  · intro e he
    have hed : e ∈ dedupeBy key l := hsub.subset he
    unfold dedupeBy at hed
    rcases List.mem_map.mp hed with ⟨q, hq, rfl⟩
    obtain ⟨h1, h2⟩ := hmem q hq
    rw [← h1]
    exact h2

/-- C5 witness: on the input with a duplicated id a, the single executed
batch has distinct ids and keeps, for id a, the later record sampleA2. -/
theorem c5_batch_dedup_last_wins_witness :
    (([sampleA2, sampleB].map (fun e => e.id)).Nodup
      ∧ ∀ e ∈ [sampleA2, sampleB],
          lastOccurrence (fun e => e.id) [sampleA1, sampleB, sampleA2] (e.id) = some e) :=
  c5_batch_dedup_last_wins 500 (fun e => e.id) [sampleA1, sampleB, sampleA2]
    [sampleA2, sampleB] (by decide)

/-- Helper: applying a concatenation of rows is applying both parts in
order. -/
theorem applyChunk_append (key : α → String) (s : Store α) (a b : List α) :
    applyChunk key s (a ++ b) = applyChunk key (applyChunk key s a) b := by
  unfold applyChunk
  rw [List.foldl_append]

/-- Helper: folding the chunk application over a chunk list is applying the
concatenated rows. -/
theorem foldl_applyChunk_flatten (key : α → String) (cs : List (List α)) :
    ∀ s : Store α, cs.foldl (applyChunk key) s = applyChunk key s cs.flatten := by
  induction cs with
  | nil => intro s; rfl
  | cons c cs ih =>
    intro s
    rw [List.foldl_cons, ih, List.flatten_cons, applyChunk_append]

/-- Helper: find? over an append searches left to right. -/
theorem find?_append_or (p : β → Bool) :
    ∀ (l₁ l₂ : List β), (l₁ ++ l₂).find? p = ((l₁.find? p).or (l₂.find? p)) := by
  intro l₁ l₂
  induction l₁ with
  | nil => simp
  | cons a l₁ ih =>
    by_cases ha : p a
    · simp [List.find?_cons_of_pos, ha]
    · simp only [List.cons_append, List.find?_cons_of_neg _ ha]
      exact ih

/-- Helper: the last occurrence over a cons — the tail wins when it has the
key, the head is consulted otherwise. -/
theorem lastOccurrence_cons (key : α → String) (e : α) (l : List α) (k : String) :
    lastOccurrence key (e :: l) k
      = ((lastOccurrence key l k).or (if key e = k then some e else none)) := by
  unfold lastOccurrence
  rw [List.reverse_cons, find?_append_or]
  by_cases hk : key e = k
  · simp [hk]
  · simp [hk]

/-- Helper: the store after one chunk statement holds, at each key, the last
row of the chunk with that key, and the previous content where the chunk has
none. -/
theorem applyChunk_lookup (key : α → String) (b : List α) :
    ∀ (s : Store α) (k : String),
      applyChunk key s b k = ((lastOccurrence key b k).or (s k)) := by
  induction b with
  | nil =>
    intro s k
    simp [applyChunk, lastOccurrence]
  | cons e b ih =>
    intro s k
    show applyChunk key (upsertRow key s e) b k = _
    rw [ih, lastOccurrence_cons, Option.or_assoc]
    congr 1
    unfold upsertRow
    by_cases hk : k = key e
    · simp [hk]
    · rw [if_neg hk, if_neg (fun h => hk h.symm)]
      simp

/-- Helper: with a positive batch size, the bulk upsert effect on the store
is the effect of the deduplicated row list. -/
theorem bulkUpsertStore_eq_dedup (n : Nat) (key : α → String) (l : List α)
    (hn : 0 < n) (s : Store α) :
    bulkUpsertStore n key l s = applyChunk key s (dedupeBy key l) := by
  unfold bulkUpsertStore bulkBatches chunksOf
  rw [foldl_applyChunk_flatten, chunksOfAux_flatten hn _ _ le_rfl]

/-- C6: applying the bulk upsert operation twice with the same input leaves
the store identical to applying it once, the per-chunk statement modelled as
inserting each row and overwriting every non-key column on a primary-key
conflict. -/
theorem c6_bulk_upsert_idempotent :
    ∀ (n : Nat) (key : α → String) (l : List α) (s : Store α), 0 < n →
      bulkUpsertStore n key l (bulkUpsertStore n key l s) = bulkUpsertStore n key l s := by
  intro n key l s hn
  rw [bulkUpsertStore_eq_dedup n key l hn, bulkUpsertStore_eq_dedup n key l hn]
  funext k
  rw [applyChunk_lookup, applyChunk_lookup]
  cases lastOccurrence key (dedupeBy key l) k with
  | none => simp
  | some e => simp

/-- C6 witness: idempotence at a concrete input and batch size, with the
positivity hypothesis discharged. -/
theorem c6_bulk_upsert_idempotent_witness :
    bulkUpsertStore 500 (fun e => e.id) [sampleA1, sampleB, sampleA2]
        (bulkUpsertStore 500 (fun e => e.id) [sampleA1, sampleB, sampleA2] emptyStore)
      = bulkUpsertStore 500 (fun e => e.id) [sampleA1, sampleB, sampleA2] emptyStore :=
  c6_bulk_upsert_idempotent 500 (fun e => e.id) [sampleA1, sampleB, sampleA2]
    emptyStore (by decide)

/-- Helper: the chunk loop under a failure oracle decomposes into three
independent per-chunk quantities — the store receives exactly the rows of
the succeeding chunks in order, and each counter receives exactly the row
counts of its chunks, regardless of what happens to any other chunk. -/
theorem runChunksAux_spec (key : α → String) (fails : Nat → Bool) :
    ∀ (cs : List (List α)) (i : Nat) (s : Store α) (succ err : Nat),
      runChunksAux key fails i s succ err cs
        = (applyChunk key s (successfulRows fails i cs),
           succ + okRows fails i cs, err + failRows fails i cs) := by
  intro cs
  induction cs with
  | nil =>
    intro i s succ err
    simp [runChunksAux, successfulRows, okRows, failRows, applyChunk]
  | cons c cs ih =>
    intro i s succ err
    by_cases hf : fails i
    · rw [runChunksAux, if_pos hf, ih]
      simp [successfulRows, okRows, failRows, hf, Nat.add_assoc]
    · rw [runChunksAux, if_neg hf, ih]
      simp [successfulRows, okRows, failRows, hf, applyChunk_append, Nat.add_assoc]

/-- Helper: every chunk is accounted to exactly one of the two counters, so
together they cover every chunked row. -/
theorem okRows_add_failRows (fails : Nat → Bool) :
    ∀ (cs : List (List α)) (i : Nat),
      okRows fails i cs + failRows fails i cs = (cs.map (fun c => c.length)).sum := by
  intro cs
  induction cs with
  | nil => intro i; simp [okRows, failRows]
  | cons c cs ih =>
    intro i
    rw [okRows, failRows, List.map_cons, List.sum_cons, ← ih (i + 1)]
    by_cases hf : fails i
    · simp [hf]
      omega
    · simp [hf]
      omega

/-- C9: for every pattern of chunk write failures, the bulk upserter
attempts every chunk — each failing chunk adds exactly its row count to
errorCount and each succeeding chunk adds exactly its row count to
successCount, the two counters together covering every chunked row — the
store receives exactly the rows of the succeeding chunks in order (a failure
neither aborts nor rolls back any other chunk), and the loop returns
normally as a total function. -/
theorem c9_chunk_failures_isolated :
    ∀ (n : Nat) (key : α → String) (fails : Nat → Bool) (l : List α) (s : Store α),
      (runBulk n key fails l s).1
          = applyChunk key s (successfulRows fails 0 (bulkBatches n key l))
    ∧ (runBulk n key fails l s).2.1 = okRows fails 0 (bulkBatches n key l)
    ∧ (runBulk n key fails l s).2.2 = failRows fails 0 (bulkBatches n key l)
    ∧ (runBulk n key fails l s).2.1 + (runBulk n key fails l s).2.2
          = ((bulkBatches n key l).map (fun c => c.length)).sum := by
  intro n key fails l s
  unfold runBulk
  rw [runChunksAux_spec]
  refine ⟨rfl, by simp, by simp, ?_⟩
  simp [okRows_add_failRows]

/-- Helper: the deduplicated list is as long as the number of distinct keys
of the input. -/
theorem dedupeBy_length (key : α → String) (l : List α) :
    (dedupeBy key l).length = ((l.map key).dedup).length := by
  obtain ⟨hnd, -, hkeys⟩ := jsMapOf_invariant key l
  have h1 : ((jsMapOf key l).map (fun p => p.1)).toFinset = (l.map key).toFinset := by
    ext k
    simp only [List.mem_toFinset]
    exact hkeys k
  have h2 : (dedupeBy key l).length = ((jsMapOf key l).map (fun p => p.1)).length := by
    simp [dedupeBy]
  rw [h2, ← List.toFinset_card_of_nodup hnd, h1, List.card_toFinset]

/-- C10: for every input and failure pattern, successCount and errorCount
sum to the number of distinct primary keys of the input, not to the input
length; when the input contains a duplicated key the counters account for
strictly fewer rows than records supplied. -/
theorem c10_counts_sum_to_distinct_ids :
    ∀ (n : Nat) (key : α → String) (fails : Nat → Bool) (l : List α) (s : Store α),
      0 < n →
      (runBulk n key fails l s).2.1 + (runBulk n key fails l s).2.2
          = ((l.map key).dedup).length
    ∧ (¬ (l.map key).Nodup →
        (runBulk n key fails l s).2.1 + (runBulk n key fails l s).2.2 < l.length) := by
  intro n key fails l s hn
  have hsum : (runBulk n key fails l s).2.1 + (runBulk n key fails l s).2.2
      = ((l.map key).dedup).length := by
    unfold runBulk
    rw [runChunksAux_spec]
    simp only [Nat.zero_add]
    rw [okRows_add_failRows]
    have hflat : ((bulkBatches n key l).map (fun c => c.length)).sum
        = (bulkBatches n key l).flatten.length := (List.length_flatten _).symm
    rw [hflat]
    unfold bulkBatches chunksOf
    rw [chunksOfAux_flatten hn _ _ le_rfl, dedupeBy_length]
  refine ⟨hsum, fun hdup => ?_⟩
  rw [hsum]
  have hle : (l.map key).dedup.length ≤ (l.map key).length :=
    (List.dedup_sublist _).length_le
  have hne : (l.map key).dedup ≠ l.map key := fun h => hdup (h ▸ List.nodup_dedup _)
  have hlt : (l.map key).dedup.length < (l.map key).length :=
    lt_of_le_of_ne hle (fun hl => hne ((List.dedup_sublist _).eq_of_length hl))
  simpa using hlt

/-- C10 witness: on a three-record input with a duplicated id, the counters
sum to 2 distinct ids, strictly fewer than the 3 records supplied. -/
theorem c10_counts_sum_to_distinct_ids_witness :
    ((runBulk 500 (fun e => e.id) (fun _ => false) [sampleA1, sampleB, sampleA2] emptyStore).2.1
        + (runBulk 500 (fun e => e.id) (fun _ => false) [sampleA1, sampleB, sampleA2] emptyStore).2.2
        = (([sampleA1, sampleB, sampleA2].map (fun e => e.id)).dedup).length)
  ∧ (runBulk 500 (fun e => e.id) (fun _ => false) [sampleA1, sampleB, sampleA2] emptyStore).2.1
        + (runBulk 500 (fun e => e.id) (fun _ => false) [sampleA1, sampleB, sampleA2] emptyStore).2.2
        < ([sampleA1, sampleB, sampleA2] : List PolymarketEvent).length := by
  have h := c10_counts_sum_to_distinct_ids 500 (fun e : PolymarketEvent => e.id) (fun _ => false)
    [sampleA1, sampleB, sampleA2] emptyStore (by decide)
  exact ⟨h.1, h.2 (by decide)⟩
